import Mathlib

/-!
# Smart_Zone: scheduler and progress reporter

A shallow embedding of the two Go tools under `scripts/` and of their shared
notifier:

* `scripts/track_progress/main.go` : `loadApplications`, `calculateStatistics`,
  `generateReport`;
* `scripts/schedule_applications/main.go` : `loadApplications`,
  `generateSchedule`, `parseDate`;
* `scripts/schedule_applications/notify/notify.go` : `SendNotifications`,
  `sendTelegram`, `sendSlack`, `sendDiscord`.

## Conventions of the embedding

* An instant (`time.Time`) is an `Int`: nanoseconds since the Unix epoch, UTC.
* Every call of `time.Now()` is a reading of a `Clock`, a stream of instants;
  the functions number their readings, so a run in which the clock moves
  between two readings is a value of the model.  `frozen now` is the clock
  that answers `now` at every reading.
* A `time.Duration` is an `Int` kept inside the signed 64-bit range by
  saturation, as `Time.Sub` does.
* `int(d.Hours() / 24)` is embedded as truncated integer division of the
  nanosecond count by the nanoseconds of a day.  The Go expression goes
  through `float64`.  Under 4096 hours the rounding error of the hour count
  is less than one nanosecond, so a duration that is a nanosecond or more
  short of a whole number of days is not rounded up to it, and whole days are
  exact; above, the conversion is monotone.  The two therefore agree wherever
  the programs look at the value: the comparisons with 7, 14 and 21 and the
  printed values, which are under 7.
* Go loops that append to a slice are folds that append to a list; the
  counters of `Statistics` are `Nat` (they are bounded by a slice length).
* Files, decoders and HTTP are the environment: they are parameters.
-/

/-! ## Data model -/

/-- The record `Application` (the same declaration in both tools). -/
structure Application where
  Name : String
  Deadline : String
  Status : String
  CurrentStage : String
  NextAction : String
  RequiredDocs : List String
  Progress : Int
  Notes : String
deriving DecidableEq, Repr

/-- The record `ApplicationsFile`. -/
structure ApplicationsFile where
  Applications : List Application
deriving DecidableEq, Repr

/-- The record `Lead` of the scheduler. -/
structure Lead where
  Name : String
  Amount : String
  Deadline : String
  Status : String
  Source : String
  URL : String
deriving DecidableEq, Repr

/-- The record `Statistics` of the reporter. -/
structure Statistics where
  Total : Nat
  InProgress : Nat
  Completed : Nat
  NotStarted : Nat
  Upcoming : List Application
  Upcoming7 : Nat
  Upcoming14 : Nat
  Upcoming21 : Nat
deriving DecidableEq, Repr

/-! ## Time -/

/-- A stream of wall-clock readings: `clock k` is what the `k`-th call of
`time.Now()` returns, in nanoseconds since the Unix epoch. -/
abbrev Clock := Nat → Int

/-- The clock that stands still at `now`. -/
def frozen (now : Int) : Clock := fun _ => now

/-- Nanoseconds in `24 * time.Hour`. -/
def nsPerDay : Int := 86400000000000

/-- Value of `7 * 24 * time.Hour`. -/
def oneWeekDuration : Int := 7 * nsPerDay

/-- Largest `time.Duration`. -/
def maxDuration : Int := 9223372036854775807

/-- Smallest `time.Duration`. -/
def minDuration : Int := -9223372036854775808

/-- Go `t.Sub(u)`: the difference, saturated to the range of `Duration`. -/
def timeSub (t u : Int) : Int :=
  if t - u > maxDuration then maxDuration
  else if t - u < minDuration then minDuration
  else t - u

/-- Go `time.Until(t)` when the clock reads `reading`. -/
def timeUntil (reading t : Int) : Int := timeSub t reading

/-- Go `int(d.Hours() / 24)`: whole days of a duration, rounded towards zero. -/
def wholeDays (d : Int) : Int := Int.tdiv d nsPerDay

/-- Go `isDigit`. -/
def isDigit (c : Char) : Bool := decide ('0' ≤ c) && decide (c ≤ '9')

/-- Value of a decimal digit. -/
def digitVal (c : Char) : Int := (c.toNat : Int) - 48

/-- Go `isLeap`. -/
def isLeap (year : Int) : Bool :=
  decide (year % 4 = 0) && (decide (year % 100 ≠ 0) || decide (year % 400 = 0))

/-- Go table `daysBefore`: `daysBefore i` is the number of days of a non-leap
year before month `i + 1`, with the whole year at index 12. -/
def daysBefore (i : Int) : Int :=
  if i = 0 then 0 else if i = 1 then 31 else if i = 2 then 59
  else if i = 3 then 90 else if i = 4 then 120 else if i = 5 then 151
  else if i = 6 then 181 else if i = 7 then 212 else if i = 8 then 243
  else if i = 9 then 273 else if i = 10 then 304 else if i = 11 then 334 else 365

/-- Go `daysIn(month, year)`. -/
def daysIn (month year : Int) : Int :=
  if month = 2 ∧ isLeap year = true then 29
  else daysBefore month - daysBefore (month - 1)

/-- Days from 1970-01-01 to the first of January of `year` (proleptic
Gregorian calendar, as `time.Date` counts them). -/
def daysSinceEpoch (year : Int) : Int :=
  365 * (year - 1970) + ((year - 1) / 4 - (year - 1) / 100 + (year - 1) / 400) - 477

/-- Go `time.Date(year, month, day, 0, 0, 0, 0, time.UTC)` as an instant. -/
def dateUTC (year month day : Int) : Int :=
  (daysSinceEpoch year + daysBefore (month - 1)
    + (if isLeap year = true ∧ month ≥ 3 then 1 else 0) + (day - 1)) * nsPerDay

/-- Go `time.Parse("2006-01-02", value)` (standard library): `none` is a
non-nil error.  The layout asks for four digits, a hyphen, two digits, a
hyphen, two digits and nothing more; then the month must be 1..12 and the day
1..`daysIn`.  The result is midnight UTC of that date. -/
def timeParse (value : String) : Option Int :=
  match value.toList with
  | [y1, y2, y3, y4, h1, m1, m2, h2, d1, d2] =>
    if isDigit y1 && isDigit y2 && isDigit y3 && isDigit y4 && (h1 == '-')
        && isDigit m1 && isDigit m2 && (h2 == '-') && isDigit d1 && isDigit d2 then
      let year := 1000 * digitVal y1 + 100 * digitVal y2 + 10 * digitVal y3 + digitVal y4
      let month := 10 * digitVal m1 + digitVal m2
      let day := 10 * digitVal d1 + digitVal d2
      if month ≤ 0 ∨ 12 < month then none
      else if day < 1 ∨ day > daysIn month year then none
      else some (dateUTC year month day)
    else none
  | _ => none

/-- Go `parseDate` of the scheduler: the parse error is dropped, and the zero
`time.Time` (January 1 of year 1) stands for an unparsable date. -/
def parseDate (dateStr : String) : Int :=
  match timeParse dateStr with
  | some t => t
  | none => dateUTC 1 1 1

/-! ## The reporter: `scripts/track_progress/main.go` -/

/-- The empty `Statistics` with which `calculateStatistics` starts. -/
def emptyStatistics : Statistics :=
  { Total := 0, InProgress := 0, Completed := 0, NotStarted := 0,
    Upcoming := [], Upcoming7 := 0, Upcoming14 := 0, Upcoming21 := 0 }

/-- The `switch app.Status` of `calculateStatistics`. -/
def countStatus (stats : Statistics) (status : String) : Statistics :=
  if status = "in_progress" then { stats with InProgress := stats.InProgress + 1 }
  else if status = "submitted" ∨ status = "accepted" ∨ status = "rejected" then
    { stats with Completed := stats.Completed + 1 }
  else if status = "not_started" then { stats with NotStarted := stats.NotStarted + 1 }
  else stats

/-- The threshold chain of `calculateStatistics` on `daysUntil`. -/
def countUpcoming (stats : Statistics) (app : Application) (daysUntil : Int) : Statistics :=
  if daysUntil ≤ 7 then
    { stats with Upcoming7 := stats.Upcoming7 + 1, Upcoming := stats.Upcoming ++ [app] }
  else if daysUntil ≤ 14 then { stats with Upcoming14 := stats.Upcoming14 + 1 }
  else if daysUntil ≤ 21 then { stats with Upcoming21 := stats.Upcoming21 + 1 }
  else stats

/-- One iteration of the loop of `calculateStatistics`.  The state is the
`Statistics` built so far and the number of clock readings already taken;
`time.Until` takes one more reading. -/
def statisticsStep (clock : Clock) (now : Int) (st : Statistics × Nat) (app : Application) :
    Statistics × Nat :=
  let stats := { st.1 with Total := st.1.Total + 1 }
  let stats := countStatus stats app.Status
  if app.Deadline ≠ "" then
    match timeParse app.Deadline with
    | some deadline =>
      if deadline > now then
        let daysUntil := wholeDays (timeUntil (clock st.2) deadline)
        (countUpcoming stats app daysUntil, st.2 + 1)
      else (stats, st.2)
    | none => (stats, st.2)
  else (stats, st.2)

/-- Go `calculateStatistics(apps, deadlines)`; the `deadlines` argument is
never read by the function and is left out. -/
def calculateStatistics (clock : Clock) (apps : List Application) : Statistics :=
  let now := clock 0
  (apps.foldl (statisticsStep clock now) (emptyStatistics, 1)).1

/-- Go `fmt.Sprintf("- %s (Deadline: %s)\n", app.Name, app.Deadline)`. -/
def urgentLine (app : Application) : String :=
  "- " ++ app.Name ++ " (Deadline: " ++ app.Deadline ++ ")\n"

/-- Go `generateReport(stats)`. -/
def generateReport (stats : Statistics) : String :=
  let report := "[ScholarshipOps Progress Report]\n\n"
  let report := report ++ "📊 Statistics:\n"
  let report := report ++ ("- Total applications: " ++ toString stats.Total ++ "\n")
  let report := report ++ ("- In progress: " ++ toString stats.InProgress ++ "\n")
  let report := report ++ ("- Completed: " ++ toString stats.Completed ++ "\n")
  let report := report ++ ("- Not started: " ++ toString stats.NotStarted ++ "\n")
  let report := report ++ "\n"
  let report := report ++ "⏰ Upcoming deadlines:\n"
  let report := report ++ ("- D-7: " ++ toString stats.Upcoming7 ++ " applications\n")
  let report := report ++ ("- D-14: " ++ toString stats.Upcoming14 ++ " applications\n")
  let report := report ++ ("- D-21: " ++ toString stats.Upcoming21 ++ " applications\n")
  if stats.Upcoming.length > 0 then
    let report := report ++ "\n🚨 Urgent (D-7 or less):\n"
    stats.Upcoming.foldl (fun report app => report ++ urgentLine app) report
  else report

/-! ## The scheduler: `scripts/schedule_applications/main.go` -/

/-- One iteration of the first loop of `generateSchedule`: the application is
kept when its deadline parses and lies after `now` and before `oneWeek`. -/
def upcomingStep (now oneWeek : Int) (upcomingApps : List Application) (app : Application) :
    List Application :=
  if app.Deadline ≠ "" then
    match timeParse app.Deadline with
    | some deadline =>
      if deadline > now ∧ deadline < oneWeek then upcomingApps ++ [app] else upcomingApps
    | none => upcomingApps
  else upcomingApps

/-- Go `fmt.Sprintf("- %s (D-%d days)", app.Name, daysLeft)`. -/
def applicationLine (name : String) (daysLeft : Int) : String :=
  "- " ++ name ++ " (D-" ++ toString daysLeft ++ " days)"

/-- One iteration of the second loop of `generateSchedule`.  The state is the
suggestions so far and the number of clock readings already taken. -/
def suggestionStep (clock : Clock) (st : List String × Nat) (app : Application) :
    List String × Nat :=
  let daysLeft := wholeDays (timeUntil (clock st.2) (parseDate app.Deadline))
  (st.1 ++ [applicationLine app.Name daysLeft], st.2 + 1)

/-- One iteration of the third loop of `generateSchedule`. -/
def qualifiedStep (qualifiedLeads : List Lead) (lead : Lead) : List Lead :=
  if lead.Status = "qualified" then qualifiedLeads ++ [lead] else qualifiedLeads

/-- Go `fmt.Sprintf("- %s (Deadline: %s)", lead.Name, lead.Deadline)`. -/
def leadLine (lead : Lead) : String :=
  "- " ++ lead.Name ++ " (Deadline: " ++ lead.Deadline ++ ")"

/-- The last loop of `generateSchedule`, `for i, lead := range qualifiedLeads`,
which leaves at `i >= 5`. -/
def leadLoop : Nat → List Lead → List String → List String
  | _, [], suggestions => suggestions
  | i, lead :: rest, suggestions =>
    if i ≥ 5 then suggestions
    else leadLoop (i + 1) rest (suggestions ++ [leadLine lead])

/-- Header of the qualified-leads section. -/
def qualifiedHeader : String := "\nQualified leads to consider:"

/-- Go `generateSchedule(apps, leads)`. -/
def generateSchedule (clock : Clock) (apps : List Application) (leads : List Lead) :
    List String :=
  let suggestions : List String := []
  let now := clock 0
  let oneWeek := now + oneWeekDuration
  let upcomingApps := apps.foldl (upcomingStep now oneWeek) []
  let suggestions := (upcomingApps.foldl (suggestionStep clock) (suggestions, 1)).1
  let qualifiedLeads := leads.foldl qualifiedStep []
  if qualifiedLeads.length > 0 then
    let suggestions := suggestions ++ [qualifiedHeader]
    leadLoop 0 qualifiedLeads suggestions
  else suggestions

/-! ## The loader (the same function in both tools) -/

/-- The file system and the decoders `loadApplications` runs against. -/
structure FileEnv where
  /-- Go `filepath.Join`. -/
  Join : List String → String
  /-- Go `ioutil.ReadFile`: `none` is a non-nil error. -/
  ReadFile : String → Option String
  /-- Go `json.Unmarshal` into an `ApplicationsFile`: `none` is a non-nil error. -/
  jsonUnmarshal : String → Option ApplicationsFile
  /-- Go `yaml.Unmarshal` into an `ApplicationsFile`: `none` is a non-nil error. -/
  yamlUnmarshal : String → Option ApplicationsFile

/-- Go `loadApplications(root)`: the pair `(*ApplicationsFile, error)` is an
`Except`, `Except.error` being a non-nil error.  `fallback` is the code after
the first `if`, reached when the JSON file cannot be read or decoded. -/
def loadApplications (env : FileEnv) (root : String) : Except String ApplicationsFile :=
  let jsonPath := env.Join [root, "tracking", "applications.json"]
  let yamlPath := env.Join [root, "tracking", "applications.yml"]
  let fallback : Except String ApplicationsFile :=
    match env.ReadFile yamlPath with
    | some data =>
      match env.yamlUnmarshal data with
      | some apps => Except.ok apps
      | none => Except.ok { Applications := [] }
    | none => Except.ok { Applications := [] }
  match env.ReadFile jsonPath with
  | some data =>
    match env.jsonUnmarshal data with
    | some apps => Except.ok apps
    | none => fallback
  | none => fallback

/-! ## The notifier: `scripts/schedule_applications/notify/notify.go` -/

/-- What the notifier does to the world, in the order it does it. -/
inductive Event where
  /-- A call `http.Post(url, contentType, body)`; the body is the encoded map,
  kept as its key-value pairs in key order. -/
  | post (url : String) (contentType : String) (body : List (String × String))
  /-- A call `fmt.Println(line)`. -/
  | println (line : String)
deriving DecidableEq, Repr

/-- The environment variables and the network `SendNotifications` runs against. -/
structure NotifyEnv where
  /-- Go `os.Getenv`. -/
  Getenv : String → String
  /-- The error of `http.Post(url, contentType, body)`: `none` is nil. -/
  Post : String → String → List (String × String) → Option String

/-- Go `sendTelegram(token, chatID, text)`: its error and what it did. -/
def sendTelegram (env : NotifyEnv) (token chatID text : String) : Option String × List Event :=
  let url := "https://api.telegram.org/bot" ++ token ++ "/sendMessage"
  let data := [("chat_id", chatID), ("text", text)]
  (env.Post url "application/json" data, [Event.post url "application/json" data])

/-- Go `sendSlack(webhookURL, text)`: its error and what it did. -/
def sendSlack (env : NotifyEnv) (webhookURL text : String) : Option String × List Event :=
  let data := [("text", text)]
  (env.Post webhookURL "application/json" data, [Event.post webhookURL "application/json" data])

/-- Go `sendDiscord(webhookURL, text)`: its error and what it did. -/
def sendDiscord (env : NotifyEnv) (webhookURL text : String) : Option String × List Event :=
  let data := [("content", text)]
  (env.Post webhookURL "application/json" data, [Event.post webhookURL "application/json" data])

/-- One `if err := send(...); err == nil { sent = true }` block: the state is
the flag `sent` and the events so far. -/
def recordSend (st : Bool × List Event) (r : Option String × List Event) : Bool × List Event :=
  (if r.1 = none then true else st.1, st.2 ++ r.2)

/-- Go `SendNotifications(msg)`: the returned error (`none` is nil) and the
events in order. -/
def SendNotifications (env : NotifyEnv) (msg : String) : Option String × List Event :=
  let st : Bool × List Event := (false, [])
  let token := env.Getenv "TELEGRAM_BOT_TOKEN"
  let chatID := env.Getenv "TELEGRAM_CHAT_ID"
  let st := if token ≠ "" ∧ chatID ≠ "" then recordSend st (sendTelegram env token chatID msg)
    else st
  let slackWebhook := env.Getenv "SLACK_WEBHOOK_URL"
  let st := if slackWebhook ≠ "" then recordSend st (sendSlack env slackWebhook msg) else st
  let discordWebhook := env.Getenv "DISCORD_WEBHOOK_URL"
  let st := if discordWebhook ≠ "" then recordSend st (sendDiscord env discordWebhook msg) else st
  let events := if st.1 = false then
      st.2 ++ [Event.println ("No notification channels configured. Message:\n" ++ msg)]
    else st.2
  (none, events)

/-! ## Vocabulary of the specification

The definitions below follow the words of the specification; the theorems
compare them with the functions above. -/

/-- The status values the reporter recognises. -/
def recognizedStatus (status : String) : Bool :=
  decide (status = "in_progress" ∨ status = "submitted" ∨ status = "accepted"
    ∨ status = "rejected" ∨ status = "not_started")

/-- The number `d = floor(hours from now to the deadline / 24)`, for an
application whose deadline parses and is after `now`. -/
def daysUntilDeadline (now : Int) (app : Application) : Option Int :=
  match timeParse app.Deadline with
  | some deadline => if deadline > now then some ((deadline - now) / nsPerDay) else none
  | none => none

/-- The application has a `d`, and `d <= 7`. -/
def inBucket7 (now : Int) (app : Application) : Bool :=
  match daysUntilDeadline now app with
  | some d => decide (d ≤ 7)
  | none => false

/-- The application has a `d`, and `7 < d <= 14`. -/
def inBucket14 (now : Int) (app : Application) : Bool :=
  match daysUntilDeadline now app with
  | some d => decide (7 < d ∧ d ≤ 14)
  | none => false

/-- The application has a `d`, and `14 < d <= 21`. -/
def inBucket21 (now : Int) (app : Application) : Bool :=
  match daysUntilDeadline now app with
  | some d => decide (14 < d ∧ d ≤ 21)
  | none => false

/-- The deadline parses, is after `now`, and is at least `lo` days and less
than `hi` days ahead of `now`. -/
def deadlineAhead (now lo hi : Int) (app : Application) : Bool :=
  match timeParse app.Deadline with
  | some deadline =>
    decide (now < deadline ∧ lo * nsPerDay ≤ deadline - now ∧ deadline - now < hi * nsPerDay)
  | none => false

/-- The deadline is not empty and parses as a date. -/
def parsesDeadline (app : Application) : Bool :=
  decide (app.Deadline ≠ "") && (timeParse app.Deadline).isSome

/-- The deadline parses and lies strictly between `now` and `now + 7 days`. -/
def inWindow (now : Int) (app : Application) : Bool :=
  match timeParse app.Deadline with
  | some deadline => decide (deadline > now ∧ deadline < now + 7 * nsPerDay)
  | none => false

/-- The line `"- <name> (D-<n> days)"` with `n = floor(hours from now to the
deadline / 24)`. -/
def scheduleLine (now : Int) (app : Application) : String :=
  match timeParse app.Deadline with
  | some deadline =>
    "- " ++ app.Name ++ " (D-" ++ toString ((deadline - now) / nsPerDay) ++ " days)"
  | none => ""

/-- The lead has status exactly "qualified". -/
def isQualified (lead : Lead) : Bool := decide (lead.Status = "qualified")

/-- The qualified-leads section: nothing when no lead is qualified, otherwise
the header and a line for each of the first `min k 5` of the `k` qualified
leads. -/
def qualifiedSection (leads : List Lead) : List String :=
  if (leads.filter isQualified).length = 0 then []
  else qualifiedHeader ::
    ((leads.filter isQualified).take (min (leads.filter isQualified).length 5)).map
      (fun lead => "- " ++ lead.Name ++ " (Deadline: " ++ lead.Deadline ++ ")")

/-- The "Urgent" section of the report for the listed applications: nothing
when there is none, otherwise the header and a line for each. -/
def urgentSection (urgent : List Application) : String :=
  if urgent = [] then ""
  else "\n🚨 Urgent (D-7 or less):\n" ++ String.join
    (urgent.map (fun app => "- " ++ app.Name ++ " (Deadline: " ++ app.Deadline ++ ")\n"))

/-- An application with the given name, deadline and status and every other
field at its zero value. -/
def mkApplication (name deadline status : String) : Application :=
  { Name := name, Deadline := deadline, Status := status, CurrentStage := "",
    NextAction := "", RequiredDocs := [], Progress := 0, Notes := "" }

/-- The instant 2024-01-01 12:00:00 UTC. -/
def noonJan1 : Int := 19723 * nsPerDay + 43200000000000

/-- The part of the loop state of `calculateStatistics` that the deadlines
decide: the list, the three day counters and the number of clock readings. -/
def upcomingView (st : Statistics × Nat) : List Application × Nat × Nat × Nat × Nat :=
  (st.1.Upcoming, st.1.Upcoming7, st.1.Upcoming14, st.1.Upcoming21, st.2)

/-- The state of an input file, as the specification sees it. -/
inductive FileState where
  /-- The file is absent or cannot be read. -/
  | absent
  /-- The file is read and does not decode. -/
  | unparsable
  /-- The file is read and decodes to the collection. -/
  | parsed (apps : ApplicationsFile)
deriving DecidableEq, Repr

/-- The state of the file at `path` under the decoder `decode`. -/
def fileState (env : FileEnv) (decode : String → Option ApplicationsFile) (path : String) :
    FileState :=
  match env.ReadFile path with
  | none => FileState.absent
  | some data =>
    match decode data with
    | none => FileState.unparsable
    | some apps => FileState.parsed apps

/-- The collection the specification asks of the loader: that of the JSON file
if it parses, otherwise that of the YAML file if it parses, otherwise empty. -/
def expectedApplications : FileState → FileState → ApplicationsFile
  | FileState.parsed apps, _ => apps
  | _, FileState.parsed apps => apps
  | _, _ => { Applications := [] }

/-- The Telegram channel has both of its values. -/
def telegramConfigured (env : NotifyEnv) : Prop :=
  env.Getenv "TELEGRAM_BOT_TOKEN" ≠ "" ∧ env.Getenv "TELEGRAM_CHAT_ID" ≠ ""

instance (env : NotifyEnv) : Decidable (telegramConfigured env) := by
  unfold telegramConfigured; infer_instance

/-- The request the Telegram channel sends. -/
def telegramRequest (env : NotifyEnv) (msg : String) : String × String × List (String × String) :=
  ("https://api.telegram.org/bot" ++ env.Getenv "TELEGRAM_BOT_TOKEN" ++ "/sendMessage",
    "application/json", [("chat_id", env.Getenv "TELEGRAM_CHAT_ID"), ("text", msg)])

/-- The request the Slack channel sends. -/
def slackRequest (env : NotifyEnv) (msg : String) : String × String × List (String × String) :=
  (env.Getenv "SLACK_WEBHOOK_URL", "application/json", [("text", msg)])

/-- The request the Discord channel sends. -/
def discordRequest (env : NotifyEnv) (msg : String) : String × String × List (String × String) :=
  (env.Getenv "DISCORD_WEBHOOK_URL", "application/json", [("content", msg)])

/-- The request is sent without error. -/
def delivered (env : NotifyEnv) (r : String × String × List (String × String)) : Prop :=
  env.Post r.1 r.2.1 r.2.2 = none

instance (env : NotifyEnv) (r : String × String × List (String × String)) :
    Decidable (delivered env r) := by
  unfold delivered; infer_instance

/-- The event of sending the request. -/
def posted (r : String × String × List (String × String)) : Event :=
  Event.post r.1 r.2.1 r.2.2

/-- The fixed header of the report. -/
def reportHeader : String := "[ScholarshipOps Progress Report]\n\n"

/-- The statistics block of the report: its title and the four counts. -/
def statisticsBlock (total inProgress completed notStarted : Nat) : String :=
  "📊 Statistics:\n"
    ++ ("- Total applications: " ++ toString total ++ "\n")
    ++ ("- In progress: " ++ toString inProgress ++ "\n")
    ++ ("- Completed: " ++ toString completed ++ "\n")
    ++ ("- Not started: " ++ toString notStarted ++ "\n")

/-- The upcoming-deadlines block of the report: its title and the three
thresholds. -/
def upcomingBlock (upcoming7 upcoming14 upcoming21 : Nat) : String :=
  "⏰ Upcoming deadlines:\n"
    ++ ("- D-7: " ++ toString upcoming7 ++ " applications\n")
    ++ ("- D-14: " ++ toString upcoming14 ++ " applications\n")
    ++ ("- D-21: " ++ toString upcoming21 ++ " applications\n")

/-! ## Theorems -/

theorem timeParse_empty : timeParse "" = none := by decide

theorem wholeDays_timeUntil_le (now deadline k : Int) (h : now < deadline) (hk : k ≤ 106750) :
    wholeDays (timeUntil now deadline) ≤ k ↔ (deadline - now) / nsPerDay ≤ k := by
  unfold wholeDays timeUntil timeSub maxDuration minDuration nsPerDay
  split_ifs with h1 h2
  · rw [Int.tdiv_eq_ediv (by omega) (by omega)]; omega
  · omega
  · rw [Int.tdiv_eq_ediv (by omega) (by omega)]

theorem countStatus_fields (stats : Statistics) (status : String) :
    (countStatus stats status).Total = stats.Total
      ∧ (countStatus stats status).Upcoming = stats.Upcoming
      ∧ (countStatus stats status).Upcoming7 = stats.Upcoming7
      ∧ (countStatus stats status).Upcoming14 = stats.Upcoming14
      ∧ (countStatus stats status).Upcoming21 = stats.Upcoming21 := by
  unfold countStatus
  split_ifs <;> simp

theorem countStatus_sum (stats : Statistics) (status : String) :
    (countStatus stats status).InProgress + (countStatus stats status).Completed
        + (countStatus stats status).NotStarted
      = stats.InProgress + stats.Completed + stats.NotStarted
        + (if recognizedStatus status = true then 1 else 0) := by
  unfold countStatus recognizedStatus
  split_ifs <;> simp_all <;> omega

theorem countUpcoming_fields (stats : Statistics) (app : Application) (d : Int) :
    (countUpcoming stats app d).Total = stats.Total
      ∧ (countUpcoming stats app d).InProgress = stats.InProgress
      ∧ (countUpcoming stats app d).Completed = stats.Completed
      ∧ (countUpcoming stats app d).NotStarted = stats.NotStarted := by
  unfold countUpcoming
  split_ifs <;> simp

/-- The test `app.Deadline != ""` is subsumed by the parse: the step is decided
by the parse and the comparison with `now`. -/
theorem statisticsStep_eq (clock : Clock) (now : Int) (st : Statistics × Nat)
    (app : Application) :
    statisticsStep clock now st app =
      match timeParse app.Deadline with
      | some deadline =>
        if deadline > now then
          (countUpcoming (countStatus { st.1 with Total := st.1.Total + 1 } app.Status) app
            (wholeDays (timeUntil (clock st.2) deadline)), st.2 + 1)
        else (countStatus { st.1 with Total := st.1.Total + 1 } app.Status, st.2)
      | none => (countStatus { st.1 with Total := st.1.Total + 1 } app.Status, st.2) := by
  unfold statisticsStep
  by_cases h : app.Deadline = ""
  · simp [h, timeParse_empty]
  · simp [h]

theorem statisticsStep_total (clock : Clock) (now : Int) (st : Statistics × Nat)
    (app : Application) :
    (statisticsStep clock now st app).1.Total = st.1.Total + 1 := by
  rw [statisticsStep_eq]
  split
  · split_ifs
    · simp [(countUpcoming_fields _ _ _).1, (countStatus_fields _ _).1]
    · simp [(countStatus_fields _ _).1]
  · simp [(countStatus_fields _ _).1]

theorem statisticsStep_status (clock : Clock) (now : Int) (st : Statistics × Nat)
    (app : Application) :
    (statisticsStep clock now st app).1.InProgress + (statisticsStep clock now st app).1.Completed
        + (statisticsStep clock now st app).1.NotStarted
      = st.1.InProgress + st.1.Completed + st.1.NotStarted
        + (if recognizedStatus app.Status = true then 1 else 0) := by
  have hs := countStatus_sum { st.1 with Total := st.1.Total + 1 } app.Status
  rw [statisticsStep_eq]
  cases timeParse app.Deadline with
  | none => exact hs
  | some deadline =>
    by_cases hd : deadline > now
    · simp only [if_pos hd, (countUpcoming_fields _ _ _).2.1, (countUpcoming_fields _ _ _).2.2.1,
        (countUpcoming_fields _ _ _).2.2.2]
      exact hs
    · simp only [if_neg hd]
      exact hs

theorem foldl_statisticsStep_total (clock : Clock) (now : Int) (apps : List Application) :
    ∀ st : Statistics × Nat,
      (apps.foldl (statisticsStep clock now) st).1.Total = st.1.Total + apps.length := by
  induction apps with
  | nil => intro st; simp
  | cons app rest ih =>
    intro st
    rw [List.foldl_cons, ih, statisticsStep_total, List.length_cons]
    omega

theorem foldl_statisticsStep_status (clock : Clock) (now : Int) (apps : List Application) :
    ∀ st : Statistics × Nat,
      (apps.foldl (statisticsStep clock now) st).1.InProgress
          + (apps.foldl (statisticsStep clock now) st).1.Completed
          + (apps.foldl (statisticsStep clock now) st).1.NotStarted
        = st.1.InProgress + st.1.Completed + st.1.NotStarted
          + apps.countP (fun app => recognizedStatus app.Status) := by
  induction apps with
  | nil => intro st; simp
  | cons app rest ih =>
    intro st
    rw [List.foldl_cons, ih, statisticsStep_status, List.countP_cons]
    omega

/-- C1: for every clock and every list of applications, the statistics satisfy
`InProgress + Completed + NotStarted <= Total`, and the two sides are equal
exactly when every status is one of "in_progress", "submitted", "accepted",
"rejected", "not_started". -/
theorem calculateStatistics_status_invariant (clock : Clock) (apps : List Application) :
    (calculateStatistics clock apps).InProgress + (calculateStatistics clock apps).Completed
        + (calculateStatistics clock apps).NotStarted ≤ (calculateStatistics clock apps).Total
    ∧ ((calculateStatistics clock apps).InProgress + (calculateStatistics clock apps).Completed
        + (calculateStatistics clock apps).NotStarted = (calculateStatistics clock apps).Total
      ↔ ∀ app ∈ apps, app.Status = "in_progress" ∨ app.Status = "submitted"
          ∨ app.Status = "accepted" ∨ app.Status = "rejected" ∨ app.Status = "not_started") := by
  unfold calculateStatistics
  simp only [foldl_statisticsStep_status, foldl_statisticsStep_total]
  have hle := List.countP_le_length (fun app : Application => recognizedStatus app.Status)
    (l := apps)
  have hiff := List.countP_eq_length (p := fun app : Application => recognizedStatus app.Status)
    (l := apps)
  simp only [emptyStatistics]
  constructor
  · omega
  · constructor
    · intro h app happ
      have := hiff.mp (by omega) app happ
      simpa [recognizedStatus] using this
    · intro h
      have : List.countP (fun app : Application => recognizedStatus app.Status) apps
          = apps.length := hiff.mpr (fun app happ => by simpa [recognizedStatus] using h app happ)
      omega

theorem countUpcoming_upcoming (stats : Statistics) (app : Application) (d : Int) :
    (countUpcoming stats app d).Upcoming7 = stats.Upcoming7 + (if d ≤ 7 then 1 else 0)
      ∧ (countUpcoming stats app d).Upcoming14
          = stats.Upcoming14 + (if 7 < d ∧ d ≤ 14 then 1 else 0)
      ∧ (countUpcoming stats app d).Upcoming21
          = stats.Upcoming21 + (if 14 < d ∧ d ≤ 21 then 1 else 0)
      ∧ (countUpcoming stats app d).Upcoming
          = stats.Upcoming ++ (if d ≤ 7 then [app] else []) := by
  unfold countUpcoming
  by_cases h7 : d ≤ 7
  · have h1 : ¬ (7 < d ∧ d ≤ 14) := by omega
    have h2 : ¬ (14 < d ∧ d ≤ 21) := by omega
    simp [h7, h1, h2]
  · by_cases h14 : d ≤ 14
    · have h1 : 7 < d ∧ d ≤ 14 := by omega
      have h2 : ¬ (14 < d ∧ d ≤ 21) := by omega
      simp [h7, h14, h1, h2]
    · by_cases h21 : d ≤ 21
      · have h1 : ¬ (7 < d ∧ d ≤ 14) := by omega
        have h2 : 14 < d ∧ d ≤ 21 := by omega
        simp [h7, h14, h21, h1, h2]
      · have h1 : ¬ (7 < d ∧ d ≤ 14) := by omega
        have h2 : ¬ (14 < d ∧ d ≤ 21) := by omega
        simp [h7, h14, h21, h1, h2]

/-- With the clock standing still, the days the code computes are the days of
the specification: saturation of the duration and rounding towards zero do
not show in the comparisons with 7, 14 and 21. -/
theorem statisticsStep_frozen (now : Int) (st : Statistics × Nat) (app : Application) :
    (statisticsStep (frozen now) now st app).1.Upcoming7
        = st.1.Upcoming7 + (if inBucket7 now app = true then 1 else 0)
      ∧ (statisticsStep (frozen now) now st app).1.Upcoming14
        = st.1.Upcoming14 + (if inBucket14 now app = true then 1 else 0)
      ∧ (statisticsStep (frozen now) now st app).1.Upcoming21
        = st.1.Upcoming21 + (if inBucket21 now app = true then 1 else 0)
      ∧ (statisticsStep (frozen now) now st app).1.Upcoming
        = st.1.Upcoming ++ (if inBucket7 now app = true then [app] else []) := by
  have hc := countStatus_fields { st.1 with Total := st.1.Total + 1 } app.Status
  rw [statisticsStep_eq]
  unfold inBucket7 inBucket14 inBucket21 daysUntilDeadline
  cases timeParse app.Deadline with
  | none => simp [hc]
  | some deadline =>
    by_cases hd : deadline > now
    · have e7 := wholeDays_timeUntil_le now deadline 7 hd (by omega)
      have e14 := wholeDays_timeUntil_le now deadline 14 hd (by omega)
      have e21 := wholeDays_timeUntil_le now deadline 21 hd (by omega)
      have hu := countUpcoming_upcoming
        (countStatus { st.1 with Total := st.1.Total + 1 } app.Status) app
        (wholeDays (timeUntil now deadline))
      simp only [if_pos hd, frozen, hu, hc, decide_eq_true_eq]
      simp only [e7, e14, e21, Int.not_le.symm]
      simp
    · simp [hd, hc]

theorem foldl_statisticsStep_frozen (now : Int) (apps : List Application) :
    ∀ st : Statistics × Nat,
      (apps.foldl (statisticsStep (frozen now) now) st).1.Upcoming7
          = st.1.Upcoming7 + apps.countP (inBucket7 now)
      ∧ (apps.foldl (statisticsStep (frozen now) now) st).1.Upcoming14
          = st.1.Upcoming14 + apps.countP (inBucket14 now)
      ∧ (apps.foldl (statisticsStep (frozen now) now) st).1.Upcoming21
          = st.1.Upcoming21 + apps.countP (inBucket21 now)
      ∧ (apps.foldl (statisticsStep (frozen now) now) st).1.Upcoming
          = st.1.Upcoming ++ apps.filter (inBucket7 now) := by
  induction apps with
  | nil => intro st; simp
  | cons app rest ih =>
    intro st
    obtain ⟨h7, h14, h21, hu⟩ := statisticsStep_frozen now st app
    obtain ⟨i7, i14, i21, iu⟩ := ih (statisticsStep (frozen now) now st app)
    rw [List.foldl_cons, i7, i14, i21, iu, h7, h14, h21, hu]
    simp only [List.countP_cons, List.filter_cons]
    refine ⟨by omega, by omega, by omega, ?_⟩
    by_cases hb : inBucket7 now app = true <;> simp [hb]

/-- C2: with the clock standing at `now`, `Upcoming7`, `Upcoming14` and
`Upcoming21` count the applications whose `d` (the floor of the hours to
the deadline over 24, for a deadline that parses and is after `now`) is at
most 7, in (7, 14] and in (14, 21]; no application is in two of the buckets;
one with `d > 21` or without a `d` is in none; and `Upcoming` is the list of
the applications counted in `Upcoming7`, in their original order. -/
theorem calculateStatistics_buckets (now : Int) (apps : List Application) :
    (calculateStatistics (frozen now) apps).Upcoming7 = apps.countP (inBucket7 now)
    ∧ (calculateStatistics (frozen now) apps).Upcoming14 = apps.countP (inBucket14 now)
    ∧ (calculateStatistics (frozen now) apps).Upcoming21 = apps.countP (inBucket21 now)
    ∧ (calculateStatistics (frozen now) apps).Upcoming = apps.filter (inBucket7 now)
    ∧ (calculateStatistics (frozen now) apps).Upcoming.length
        = (calculateStatistics (frozen now) apps).Upcoming7
    ∧ (∀ app, ¬ (inBucket7 now app = true ∧ inBucket14 now app = true)
        ∧ ¬ (inBucket7 now app = true ∧ inBucket21 now app = true)
        ∧ ¬ (inBucket14 now app = true ∧ inBucket21 now app = true))
    ∧ (∀ app, (daysUntilDeadline now app = none ∨ ∃ d, daysUntilDeadline now app = some d ∧ 21 < d)
        → inBucket7 now app = false ∧ inBucket14 now app = false
          ∧ inBucket21 now app = false) := by
  obtain ⟨h7, h14, h21, hu⟩ := foldl_statisticsStep_frozen now apps (emptyStatistics, 1)
  have e : calculateStatistics (frozen now) apps
      = (apps.foldl (statisticsStep (frozen now) now) (emptyStatistics, 1)).1 := rfl
  rw [e, h7, h14, h21, hu]
  simp only [emptyStatistics, Nat.zero_add, List.nil_append, List.countP_eq_length_filter,
    true_and]
  constructor
  · intro app
    unfold inBucket7 inBucket14 inBucket21
    cases daysUntilDeadline now app with
    | none => simp
    | some d => simp only [decide_eq_true_eq]; omega
  · intro app h
    unfold inBucket7 inBucket14 inBucket21
    rcases h with h | ⟨d, h, hd⟩
    · simp [h]
    · simp only [h, decide_eq_false_iff_not]; omega

theorem inBucket_eq_deadlineAhead (now : Int) (app : Application) :
    inBucket7 now app = deadlineAhead now 0 8 app
      ∧ inBucket14 now app = deadlineAhead now 8 15 app
      ∧ inBucket21 now app = deadlineAhead now 15 22 app := by
  unfold inBucket7 inBucket14 inBucket21 daysUntilDeadline deadlineAhead
  cases timeParse app.Deadline with
  | none => simp
  | some deadline =>
    by_cases hd : deadline > now
    · simp only [if_pos hd, decide_eq_decide, nsPerDay]
      refine ⟨?_, ?_, ?_⟩ <;> omega
    · simp only [if_neg hd, nsPerDay]
      refine ⟨?_, ?_, ?_⟩ <;> (symm; rw [decide_eq_false_iff_not]; omega)

/-- C7, as the code has it: with the clock standing at `now`, the <=7 bucket
counts (and `Upcoming` lists) the applications whose deadline parses, is after
`now` and is less than 8 days (192 hours) ahead; the <=14 bucket those at
least 8 and less than 15 days ahead; the <=21 bucket those at least 15 and
less than 22 days ahead. -/
theorem calculateStatistics_bucket_bounds (now : Int) (apps : List Application) :
    (calculateStatistics (frozen now) apps).Upcoming7 = apps.countP (deadlineAhead now 0 8)
    ∧ (calculateStatistics (frozen now) apps).Upcoming14 = apps.countP (deadlineAhead now 8 15)
    ∧ (calculateStatistics (frozen now) apps).Upcoming21 = apps.countP (deadlineAhead now 15 22)
    ∧ (calculateStatistics (frozen now) apps).Upcoming = apps.filter (deadlineAhead now 0 8)
    ∧ (∀ app ∈ (calculateStatistics (frozen now) apps).Upcoming,
        ∃ deadline, timeParse app.Deadline = some deadline ∧ now < deadline
          ∧ deadline - now < 8 * nsPerDay) := by
  obtain ⟨h7, h14, h21, hu⟩ := foldl_statisticsStep_frozen now apps (emptyStatistics, 1)
  have e : calculateStatistics (frozen now) apps
      = (apps.foldl (statisticsStep (frozen now) now) (emptyStatistics, 1)).1 := rfl
  have f7 : inBucket7 now = deadlineAhead now 0 8 :=
    funext fun app => (inBucket_eq_deadlineAhead now app).1
  have f14 : inBucket14 now = deadlineAhead now 8 15 :=
    funext fun app => (inBucket_eq_deadlineAhead now app).2.1
  have f21 : inBucket21 now = deadlineAhead now 15 22 :=
    funext fun app => (inBucket_eq_deadlineAhead now app).2.2
  rw [e, h7, h14, h21, hu, f7, f14, f21]
  simp only [emptyStatistics, Nat.zero_add, List.nil_append, true_and]
  intro app happ
  have hp := (List.mem_filter.mp happ).2
  unfold deadlineAhead at hp
  cases hparse : timeParse app.Deadline with
  | none => simp [hparse] at hp
  | some deadline =>
    simp only [hparse, decide_eq_true_eq] at hp
    exact ⟨deadline, rfl, hp.1, hp.2.2⟩

/-- C7, as stated, fails: at noon of 2024-01-01 an application due on
2024-01-09 is counted in the <=7 bucket and listed in `Upcoming`, and its
deadline is seven and a half days (180 hours) ahead. -/
theorem urgent_bucket_beyond_168_hours :
    (calculateStatistics (frozen noonJan1) [mkApplication "A" "2024-01-09" "in_progress"]).Upcoming7
        = 1
    ∧ (calculateStatistics (frozen noonJan1) [mkApplication "A" "2024-01-09" "in_progress"]).Upcoming
        = [mkApplication "A" "2024-01-09" "in_progress"]
    ∧ timeParse (mkApplication "A" "2024-01-09" "in_progress").Deadline
        = some (noonJan1 + 180 * 3600000000000)
    ∧ ¬ (noonJan1 + 180 * 3600000000000 - noonJan1 ≤ 7 * nsPerDay) := by
  decide

theorem foldl_filter_skip {α β : Type} (f : β → α → β) (p : α → Bool)
    (hskip : ∀ acc a, p a = false → f acc a = acc) (l : List α) :
    ∀ acc, (l.filter p).foldl f acc = l.foldl f acc := by
  induction l with
  | nil => intro acc; rfl
  | cons a rest ih =>
    intro acc
    by_cases hp : p a = true
    · rw [List.filter_cons_of_pos hp, List.foldl_cons, List.foldl_cons, ih]
    · rw [List.filter_cons_of_neg hp, List.foldl_cons, ih,
        hskip acc a (by simpa using hp)]

theorem timeParse_of_not_parses (app : Application) (h : parsesDeadline app = false) :
    timeParse app.Deadline = none := by
  unfold parsesDeadline at h
  by_cases he : app.Deadline = ""
  · rw [he]; exact timeParse_empty
  · cases hp : timeParse app.Deadline with
    | none => rfl
    | some t => simp [he, hp] at h

theorem upcomingView_step_skip (clock : Clock) (now : Int) (st : Statistics × Nat)
    (app : Application) (h : parsesDeadline app = false) :
    upcomingView (statisticsStep clock now st app) = upcomingView st := by
  have hc := countStatus_fields { st.1 with Total := st.1.Total + 1 } app.Status
  rw [statisticsStep_eq, timeParse_of_not_parses app h]
  simp [upcomingView, hc]

theorem upcomingView_step_congr (clock : Clock) (now : Int) (st st' : Statistics × Nat)
    (app : Application) (h : upcomingView st = upcomingView st') :
    upcomingView (statisticsStep clock now st app)
      = upcomingView (statisticsStep clock now st' app) := by
  simp only [upcomingView, Prod.mk.injEq] at h
  obtain ⟨hu, h7, h14, h21, ht⟩ := h
  rw [statisticsStep_eq, statisticsStep_eq]
  cases timeParse app.Deadline with
  | none => simp [upcomingView, countStatus_fields, hu, h7, h14, h21, ht]
  | some deadline =>
    by_cases hd : deadline > now
    · simp [upcomingView, hd, countUpcoming_upcoming, countStatus_fields, hu, h7, h14, h21, ht]
    · simp [upcomingView, hd, countStatus_fields, hu, h7, h14, h21, ht]

theorem upcomingView_foldl_filter (clock : Clock) (now : Int) (apps : List Application) :
    ∀ st st' : Statistics × Nat, upcomingView st = upcomingView st' →
      upcomingView ((apps.filter parsesDeadline).foldl (statisticsStep clock now) st)
        = upcomingView (apps.foldl (statisticsStep clock now) st') := by
  induction apps with
  | nil => intro st st' h; exact h
  | cons app rest ih =>
    intro st st' h
    by_cases hp : parsesDeadline app = true
    · rw [List.filter_cons_of_pos hp, List.foldl_cons, List.foldl_cons]
      exact ih _ _ (upcomingView_step_congr clock now st st' app h)
    · rw [List.filter_cons_of_neg hp, List.foldl_cons]
      refine ih _ _ ?_
      rw [upcomingView_step_skip clock now st' app (by simpa using hp)]
      exact h

theorem upcomingStep_skip (now oneWeek : Int) (upcomingApps : List Application)
    (app : Application) (h : parsesDeadline app = false) :
    upcomingStep now oneWeek upcomingApps app = upcomingApps := by
  unfold upcomingStep
  rw [timeParse_of_not_parses app h]
  simp

/-- C4: for every clock, taking out the applications whose deadline is empty
or does not parse leaves the output of `generateSchedule` and the fields
`Upcoming7`, `Upcoming14`, `Upcoming21` and `Upcoming` of `calculateStatistics`
as they were; both functions are total, so neither fails on such a record. -/
theorem unparsable_deadlines_excluded (clock : Clock) (apps : List Application)
    (leads : List Lead) :
    generateSchedule clock (apps.filter parsesDeadline) leads = generateSchedule clock apps leads
    ∧ (calculateStatistics clock (apps.filter parsesDeadline)).Upcoming7
        = (calculateStatistics clock apps).Upcoming7
    ∧ (calculateStatistics clock (apps.filter parsesDeadline)).Upcoming14
        = (calculateStatistics clock apps).Upcoming14
    ∧ (calculateStatistics clock (apps.filter parsesDeadline)).Upcoming21
        = (calculateStatistics clock apps).Upcoming21
    ∧ (calculateStatistics clock (apps.filter parsesDeadline)).Upcoming
        = (calculateStatistics clock apps).Upcoming := by
  constructor
  · unfold generateSchedule
    simp only [foldl_filter_skip (upcomingStep (clock 0) (clock 0 + oneWeekDuration))
      parsesDeadline (fun acc a h => upcomingStep_skip _ _ acc a h) apps]
  · have h := upcomingView_foldl_filter clock (clock 0) apps (emptyStatistics, 1)
      (emptyStatistics, 1) rfl
    simp only [upcomingView, Prod.mk.injEq] at h
    unfold calculateStatistics
    exact ⟨h.2.1, h.2.2.1, h.2.2.2.1, h.1⟩

/-! ### The scheduler -/

theorem upcomingStep_eq (now : Int) (upcomingApps : List Application) (app : Application) :
    upcomingStep now (now + oneWeekDuration) upcomingApps app
      = upcomingApps ++ (if inWindow now app = true then [app] else []) := by
  unfold upcomingStep inWindow oneWeekDuration
  by_cases he : app.Deadline = ""
  · simp [he, timeParse_empty]
  · cases timeParse app.Deadline with
    | none => simp [he]
    | some deadline =>
      by_cases hw : deadline > now ∧ deadline < now + 7 * nsPerDay
      · simp [he, hw]
      · simp [he, hw]

theorem foldl_upcomingStep (now : Int) (apps : List Application) :
    ∀ acc, apps.foldl (upcomingStep now (now + oneWeekDuration)) acc
      = acc ++ apps.filter (inWindow now) := by
  induction apps with
  | nil => intro acc; simp
  | cons app rest ih =>
    intro acc
    rw [List.foldl_cons, ih, upcomingStep_eq]
    by_cases hw : inWindow now app = true <;> simp [hw]

theorem foldl_suggestionStep_append (clock : Clock) (upcomingApps : List Application) :
    ∀ (suggestions : List String) (tick : Nat),
      (upcomingApps.foldl (suggestionStep clock) (suggestions, tick)).1
        = suggestions ++ (upcomingApps.foldl (suggestionStep clock) ([], tick)).1 := by
  induction upcomingApps with
  | nil => intro suggestions tick; simp
  | cons app rest ih =>
    intro suggestions tick
    simp only [List.foldl_cons, suggestionStep]
    rw [ih, ih ([] ++ _)]
    simp

theorem foldl_suggestionStep_lines (clock : Clock) (upcomingApps : List Application) :
    ∀ (tick : Nat), ∀ line ∈ (upcomingApps.foldl (suggestionStep clock) ([], tick)).1,
      ∃ name n, line = applicationLine name n := by
  induction upcomingApps with
  | nil => intro tick line h; simp at h
  | cons app rest ih =>
    intro tick line h
    simp only [List.foldl_cons, suggestionStep] at h
    rw [foldl_suggestionStep_append] at h
    rcases List.mem_append.mp h with h | h
    · simp only [List.nil_append, List.mem_singleton] at h
      exact ⟨_, _, h⟩
    · exact ih _ line h

theorem foldl_suggestionStep_frozen (now : Int) (upcomingApps : List Application) :
    ∀ (tick : Nat), (upcomingApps.foldl (suggestionStep (frozen now)) ([], tick)).1
      = upcomingApps.map (fun app =>
          applicationLine app.Name (wholeDays (timeUntil now (parseDate app.Deadline)))) := by
  induction upcomingApps with
  | nil => intro tick; simp
  | cons app rest ih =>
    intro tick
    simp only [List.foldl_cons, suggestionStep, List.map_cons]
    rw [foldl_suggestionStep_append, ih]
    simp [frozen]

theorem applicationLine_eq_scheduleLine (now : Int) (app : Application)
    (h : inWindow now app = true) :
    applicationLine app.Name (wholeDays (timeUntil now (parseDate app.Deadline)))
      = scheduleLine now app := by
  unfold inWindow at h
  unfold scheduleLine parseDate applicationLine
  cases hp : timeParse app.Deadline with
  | none => simp [hp] at h
  | some deadline =>
    simp only [hp, decide_eq_true_eq] at h
    have hd : wholeDays (timeUntil now deadline) = (deadline - now) / nsPerDay := by
      unfold wholeDays timeUntil timeSub maxDuration minDuration
      unfold nsPerDay at h ⊢
      rw [if_neg (by omega), if_neg (by omega), Int.tdiv_eq_ediv (by omega) (by omega)]
    simp only [hd]

theorem foldl_qualifiedStep (leads : List Lead) :
    ∀ acc, leads.foldl qualifiedStep acc = acc ++ leads.filter isQualified := by
  induction leads with
  | nil => intro acc; simp
  | cons lead rest ih =>
    intro acc
    rw [List.foldl_cons, ih]
    unfold qualifiedStep
    by_cases hq : lead.Status = "qualified" <;> simp [hq, isQualified]

theorem leadLoop_eq (qualifiedLeads : List Lead) :
    ∀ (i : Nat) (suggestions : List String),
      leadLoop i qualifiedLeads suggestions
        = suggestions ++ (qualifiedLeads.take (5 - i)).map leadLine := by
  induction qualifiedLeads with
  | nil => intro i suggestions; simp [leadLoop]
  | cons lead rest ih =>
    intro i suggestions
    unfold leadLoop
    by_cases hi : i ≥ 5
    · have : 5 - i = 0 := by omega
      simp [hi, this]
    · have : 5 - i = (5 - (i + 1)) + 1 := by omega
      rw [if_neg hi, ih, this, List.take_succ_cons]
      simp

/-- The shape of the output of `generateSchedule`: the lines of the second
loop, then the qualified-leads section of the specification. -/
theorem generateSchedule_eq (clock : Clock) (apps : List Application) (leads : List Lead) :
    generateSchedule clock apps leads
      = ((apps.filter (inWindow (clock 0))).foldl (suggestionStep clock) ([], 1)).1
        ++ qualifiedSection leads := by
  unfold generateSchedule qualifiedSection
  simp only [foldl_upcomingStep, foldl_qualifiedStep, List.nil_append]
  by_cases hk : (leads.filter isQualified).length = 0
  · have : ¬ (leads.filter isQualified).length > 0 := by omega
    simp [hk, this]
  · have hpos : (leads.filter isQualified).length > 0 := by omega
    have ht : (leads.filter isQualified).take (min (leads.filter isQualified).length 5)
        = (leads.filter isQualified).take 5 := by
      rw [List.take_eq_take]; omega
    have hl : leadLine = fun lead => "- " ++ lead.Name ++ " (Deadline: " ++ lead.Deadline ++ ")" :=
      funext fun _ => rfl
    rw [if_pos hpos, if_neg hk, leadLoop_eq, ht, hl]
    simp

theorem applicationLine_ne_header (name : String) (n : Int) :
    applicationLine name n ≠ qualifiedHeader := by
  intro h
  have hdata := congrArg String.data h
  simp [applicationLine, qualifiedHeader, String.data_append] at hdata

theorem generateSchedule_no_leads (clock : Clock) (apps : List Application) :
    generateSchedule clock apps []
      = ((apps.filter (inWindow (clock 0))).foldl (suggestionStep clock) ([], 1)).1 := by
  rw [generateSchedule_eq]
  simp [qualifiedSection]

theorem generateSchedule_no_apps (clock : Clock) (leads : List Lead) :
    generateSchedule clock [] leads = qualifiedSection leads := by
  rw [generateSchedule_eq]
  simp

theorem generateSchedule_frozen_no_leads (now : Int) (apps : List Application) :
    generateSchedule (frozen now) apps []
      = (apps.filter (inWindow now)).map (scheduleLine now) := by
  rw [generateSchedule_no_leads, foldl_suggestionStep_frozen]
  exact List.map_congr_left fun app happ =>
    applicationLine_eq_scheduleLine now app (List.mem_filter.mp happ).2

/-- C3: for every clock, applications and leads, the output of
`generateSchedule` is the output for the same applications and no lead,
followed by the qualified-leads section: nothing when no lead has status
"qualified", otherwise the header and a line for each of the first
`min k 5` of the `k` qualified leads in their order.  The section has
`1 + min k 5` lines, and the part before it holds application lines only,
none of which is the header. -/
theorem generateSchedule_qualified_leads (clock : Clock) (apps : List Application)
    (leads : List Lead) :
    generateSchedule clock apps leads = generateSchedule clock apps [] ++ qualifiedSection leads
    ∧ (qualifiedSection leads).length
        = (if leads.countP isQualified = 0 then 0 else 1 + min (leads.countP isQualified) 5)
    ∧ (∀ line ∈ generateSchedule clock apps [],
        (∃ name n, line = applicationLine name n) ∧ line ≠ qualifiedHeader) := by
  refine ⟨?_, ?_, ?_⟩
  · rw [generateSchedule_no_leads, generateSchedule_eq]
  · unfold qualifiedSection
    rw [List.countP_eq_length_filter]
    by_cases hk : (leads.filter isQualified).length = 0
    · simp [hk]
    · simp only [if_neg hk, List.length_cons, List.length_map, List.length_take]
      omega
  · intro line hline
    rw [generateSchedule_no_leads] at hline
    obtain ⟨name, n, h⟩ := foldl_suggestionStep_lines clock _ 1 line hline
    exact ⟨⟨name, n, h⟩, h ▸ applicationLine_ne_header name n⟩

/-- C6: with the clock standing at `now`, the output of `generateSchedule`
begins with one line per application whose deadline parses and satisfies
`deadline > now` and `deadline < now + 7 days`, in the order of the input,
each `"- <name> (D-<n> days)"` with `n` the floor of the hours to the deadline
over 24; what follows does not depend on the applications and is empty or
begins with the qualified-leads header. -/
theorem generateSchedule_application_lines (now : Int) (apps : List Application)
    (leads : List Lead) :
    generateSchedule (frozen now) apps leads
      = (apps.filter (inWindow now)).map (scheduleLine now)
        ++ generateSchedule (frozen now) [] leads
    ∧ (generateSchedule (frozen now) [] leads = []
        ∨ ∃ rest, generateSchedule (frozen now) [] leads = qualifiedHeader :: rest) := by
  constructor
  · rw [← generateSchedule_frozen_no_leads, generateSchedule_no_leads, generateSchedule_no_apps,
      generateSchedule_eq]
  · rw [generateSchedule_no_apps]
    unfold qualifiedSection
    by_cases hk : (leads.filter isQualified).length = 0
    · left; simp [hk]
    · right; exact ⟨_, by rw [if_neg hk]⟩

/-- C5, as the code has it.  Today is the day of `now` in a zone `offset`
nanoseconds east of UTC (less than a day either way), the deadline is the
date three days after today (it parses to midnight UTC of that day), the
application is "A" and there is no lead.  Then the output of
`generateSchedule` is the single line "- A (D-n days)" with `n` the floor of
the hours from `now` to the deadline over 24: it is "- A (D-3 days)" when the
local time of day is at most `offset` (in UTC: at midnight only) and does not
hold that line otherwise; it never holds the qualified-leads header. -/
theorem generateSchedule_three_days_ahead (now offset : Int) (deadline : String)
    (hoff : -nsPerDay < offset ∧ offset < nsPerDay)
    (h : timeParse deadline = some (((now + offset) / nsPerDay + 3) * nsPerDay)) :
    generateSchedule (frozen now) [mkApplication "A" deadline "in_progress"] []
      = [applicationLine "A"
          ((3 * nsPerDay + offset - (now + offset) % nsPerDay) / nsPerDay)]
    ∧ ((now + offset) % nsPerDay ≤ offset →
        generateSchedule (frozen now) [mkApplication "A" deadline "in_progress"] []
          = ["- A (D-3 days)"])
    ∧ (offset < (now + offset) % nsPerDay →
        "- A (D-3 days)" ∉
          generateSchedule (frozen now) [mkApplication "A" deadline "in_progress"] [])
    ∧ qualifiedHeader ∉
        generateSchedule (frozen now) [mkApplication "A" deadline "in_progress"] [] := by
  have hw : inWindow now (mkApplication "A" deadline "in_progress") = true := by
    simp only [inWindow, mkApplication, h, decide_eq_true_eq]
    unfold nsPerDay at hoff ⊢
    omega
  have hn : ((now + offset) / nsPerDay + 3) * nsPerDay - now
      = 3 * nsPerDay + offset - (now + offset) % nsPerDay := by
    unfold nsPerDay; omega
  have hl : scheduleLine now (mkApplication "A" deadline "in_progress")
      = applicationLine "A"
          ((3 * nsPerDay + offset - (now + offset) % nsPerDay) / nsPerDay) := by
    simp only [scheduleLine, mkApplication, h, hn, applicationLine]
  have he : generateSchedule (frozen now) [mkApplication "A" deadline "in_progress"] []
      = [applicationLine "A"
          ((3 * nsPerDay + offset - (now + offset) % nsPerDay) / nsPerDay)] := by
    rw [generateSchedule_frozen_no_leads, List.filter_cons_of_pos hw]
    simp [hl]
  refine ⟨he, ?_, ?_, ?_⟩
  · intro ht
    have h3 : (3 * nsPerDay + offset - (now + offset) % nsPerDay) / nsPerDay = 3 := by
      unfold nsPerDay at hoff ht ⊢; omega
    rw [he, h3]; decide
  · intro ht
    have h12 : (3 * nsPerDay + offset - (now + offset) % nsPerDay) / nsPerDay = 1
        ∨ (3 * nsPerDay + offset - (now + offset) % nsPerDay) / nsPerDay = 2 := by
      unfold nsPerDay at hoff ht ⊢; omega
    rw [he]
    rcases h12 with h1 | h2
    · rw [h1]; decide
    · rw [h2]; decide
  · rw [he]
    simp only [List.mem_singleton]
    exact fun hq => applicationLine_ne_header _ _ hq.symm

/-- C5 at noon UTC of 2024-01-01, the zone being UTC and the deadline
"2024-01-04": the output is the line with `n = 2`. -/
theorem generateSchedule_three_days_ahead_witness :
    (-nsPerDay < 0 ∧ (0 : Int) < nsPerDay)
    ∧ timeParse "2024-01-04" = some (((noonJan1 + 0) / nsPerDay + 3) * nsPerDay)
    ∧ generateSchedule (frozen noonJan1) [mkApplication "A" "2024-01-04" "in_progress"] []
        = [applicationLine "A"
            ((3 * nsPerDay + 0 - (noonJan1 + 0) % nsPerDay) / nsPerDay)]
    ∧ ((noonJan1 + 0) % nsPerDay ≤ 0 →
        generateSchedule (frozen noonJan1) [mkApplication "A" "2024-01-04" "in_progress"] []
          = ["- A (D-3 days)"])
    ∧ (0 < (noonJan1 + 0) % nsPerDay →
        "- A (D-3 days)" ∉
          generateSchedule (frozen noonJan1) [mkApplication "A" "2024-01-04" "in_progress"] [])
    ∧ qualifiedHeader ∉
        generateSchedule (frozen noonJan1) [mkApplication "A" "2024-01-04" "in_progress"] [] :=
  ⟨by decide, by decide,
    generateSchedule_three_days_ahead noonJan1 0 "2024-01-04" (by decide) (by decide)⟩

/-- C5, as stated, fails: at noon UTC of 2024-01-01 the date three days
after today is "2024-01-04", and the output for the application "A" due then
is the single line "- A (D-2 days)", so "- A (D-3 days)" is not in it. -/
theorem schedule_at_noon_prints_two_days :
    timeParse "2024-01-04" = some ((noonJan1 / nsPerDay + 3) * nsPerDay)
    ∧ generateSchedule (frozen noonJan1) [mkApplication "A" "2024-01-04" "in_progress"] []
        = ["- A (D-2 days)"]
    ∧ "- A (D-3 days)" ∉
        generateSchedule (frozen noonJan1) [mkApplication "A" "2024-01-04" "in_progress"] [] := by
  decide

/-! ### The report -/

theorem foldl_urgentLine (urgent : List Application) :
    ∀ report : String,
      urgent.foldl (fun report app => report ++ urgentLine app) report
        = report ++ String.join (urgent.map urgentLine) := by
  induction urgent with
  | nil => intro report; simp [String.join]
  | cons app rest ih =>
    intro report
    rw [List.foldl_cons, ih, List.map_cons]
    have hj : String.join (urgentLine app :: rest.map urgentLine)
        = urgentLine app ++ String.join (rest.map urgentLine) := by
      unfold String.join
      rw [List.foldl_cons, String.empty_append]
      have hgen : ∀ (l : List String) (a : String),
          l.foldl (fun r s => r ++ s) a = a ++ l.foldl (fun r s => r ++ s) "" := by
        intro l
        induction l with
        | nil => intro a; simp
        | cons x xs ihx =>
          intro a
          rw [List.foldl_cons, ihx, List.foldl_cons, ihx ("" ++ x), String.empty_append,
            String.append_assoc]
      exact hgen _ _
    rw [hj, String.append_assoc]

theorem generateReport_eq (stats : Statistics) :
    generateReport stats
      = reportHeader
        ++ statisticsBlock stats.Total stats.InProgress stats.Completed stats.NotStarted
        ++ "\n"
        ++ upcomingBlock stats.Upcoming7 stats.Upcoming14 stats.Upcoming21
        ++ urgentSection stats.Upcoming := by
  unfold reportHeader statisticsBlock upcomingBlock
  unfold generateReport urgentSection
  have hl : urgentLine = fun app => "- " ++ app.Name ++ " (Deadline: " ++ app.Deadline ++ ")\n" :=
    funext fun _ => rfl
  cases hu : stats.Upcoming with
  | nil =>
    simp only [List.length_nil, gt_iff_lt, Nat.lt_irrefl, if_false, if_true,
      String.append_assoc, String.append_empty]
  | cons app rest =>
    simp only [List.length_cons, gt_iff_lt, Nat.zero_lt_succ, if_true, foldl_urgentLine,
      reduceCtorEq, if_false]
    simp only [hl, String.append_assoc]

theorem urgentSection_eq_empty (urgent : List Application) :
    urgentSection urgent = "" ↔ urgent = [] := by
  unfold urgentSection
  constructor
  · intro h
    by_contra hne
    rw [if_neg hne] at h
    have hdata := congrArg String.data h
    simp [String.data_append] at hdata
  · intro h
    rw [if_pos h]

set_option maxRecDepth 20000 in
theorem generateReport_no_applications (clock : Clock) :
    generateReport (calculateStatistics clock [])
      = "[ScholarshipOps Progress Report]\n\n📊 Statistics:\n- Total applications: 0\n- In progress: 0\n- Completed: 0\n- Not started: 0\n\n⏰ Upcoming deadlines:\n- D-7: 0 applications\n- D-14: 0 applications\n- D-21: 0 applications\n" := by
  have h : calculateStatistics clock [] = emptyStatistics := rfl
  rw [h]
  decide

/-- C8: with the clock standing at `now`, the report of the statistics is the
fixed header, the block of the four counts, a blank line, the block of the
three thresholds and the "Urgent" section of the applications in the <=7
bucket in their original order, one line `"- <name> (Deadline: <deadline>)"`
each; that section is absent exactly when no application is in the <=7
bucket; for no application the seven counts are printed as 0 and there is no
"Urgent" section. -/
theorem generateReport_sections (now : Int) (apps : List Application) :
    generateReport (calculateStatistics (frozen now) apps)
      = reportHeader
        ++ statisticsBlock (calculateStatistics (frozen now) apps).Total
            (calculateStatistics (frozen now) apps).InProgress
            (calculateStatistics (frozen now) apps).Completed
            (calculateStatistics (frozen now) apps).NotStarted
        ++ "\n"
        ++ upcomingBlock (calculateStatistics (frozen now) apps).Upcoming7
            (calculateStatistics (frozen now) apps).Upcoming14
            (calculateStatistics (frozen now) apps).Upcoming21
        ++ urgentSection (apps.filter (inBucket7 now))
    ∧ (urgentSection (apps.filter (inBucket7 now)) = "" ↔ ∀ app ∈ apps, inBucket7 now app = false)
    ∧ generateReport (calculateStatistics (frozen now) [])
      = "[ScholarshipOps Progress Report]\n\n📊 Statistics:\n- Total applications: 0\n- In progress: 0\n- Completed: 0\n- Not started: 0\n\n⏰ Upcoming deadlines:\n- D-7: 0 applications\n- D-14: 0 applications\n- D-21: 0 applications\n" := by
  have hu : (calculateStatistics (frozen now) apps).Upcoming = apps.filter (inBucket7 now) := by
    have h := (foldl_statisticsStep_frozen now apps (emptyStatistics, 1)).2.2.2
    simpa [emptyStatistics] using h
  refine ⟨?_, ?_, ?_⟩
  · rw [generateReport_eq, hu]
  · rw [urgentSection_eq_empty, List.filter_eq_nil_iff]
    simp
  · exact generateReport_no_applications (frozen now)

/-! ### The loader -/

/-- C9: whatever the two files are, `loadApplications` returns no error; it
returns the collection of `tracking/applications.json` if that file is read
and decodes, otherwise that of `tracking/applications.yml` if that file is read
and decodes, otherwise the empty collection; when both files are absent the
result is the empty collection. -/
theorem loadApplications_fallback (env : FileEnv) (root : String) :
    loadApplications env root
      = Except.ok (expectedApplications
          (fileState env env.jsonUnmarshal (env.Join [root, "tracking", "applications.json"]))
          (fileState env env.yamlUnmarshal (env.Join [root, "tracking", "applications.yml"])))
    ∧ (∀ message, loadApplications env root ≠ Except.error message)
    ∧ (env.ReadFile (env.Join [root, "tracking", "applications.json"]) = none
        → env.ReadFile (env.Join [root, "tracking", "applications.yml"]) = none
        → loadApplications env root = Except.ok { Applications := [] }) := by
  have hmain : loadApplications env root
      = Except.ok (expectedApplications
          (fileState env env.jsonUnmarshal (env.Join [root, "tracking", "applications.json"]))
          (fileState env env.yamlUnmarshal (env.Join [root, "tracking", "applications.yml"]))) := by
    cases hj : env.ReadFile (env.Join [root, "tracking", "applications.json"]) with
    | none =>
      cases hy : env.ReadFile (env.Join [root, "tracking", "applications.yml"]) with
      | none => simp [loadApplications, fileState, expectedApplications, hj, hy]
      | some ydata =>
        cases hyd : env.yamlUnmarshal ydata <;>
          simp [loadApplications, fileState, expectedApplications, hj, hy, hyd]
    | some jdata =>
      cases hjd : env.jsonUnmarshal jdata with
      | some apps => simp [loadApplications, fileState, expectedApplications, hj, hjd]
      | none =>
        cases hy : env.ReadFile (env.Join [root, "tracking", "applications.yml"]) with
        | none => simp [loadApplications, fileState, expectedApplications, hj, hjd, hy]
        | some ydata =>
          cases hyd : env.yamlUnmarshal ydata <;>
            simp [loadApplications, fileState, expectedApplications, hj, hjd, hy, hyd]
  refine ⟨hmain, ?_, ?_⟩
  · intro message h
    rw [hmain] at h
    cases h
  · intro hj hy
    rw [hmain]
    simp [fileState, hj, hy, expectedApplications]

/-! ### The notifier -/

/-- C10: whatever the four environment values and the outcome of each send,
`SendNotifications` returns no error; it sends, in the order Telegram, Slack,
Discord, the request of each channel whose values are all non-empty (Telegram
needs the token and the chat id) and of no other, whether or not an earlier
send failed; and it prints the line "No notification channels configured.
Message:" followed by the message, after the sends, exactly when no request
it sent was delivered. -/
theorem SendNotifications_best_effort (env : NotifyEnv) (msg : String) :
    (SendNotifications env msg).1 = none
    ∧ (SendNotifications env msg).2
      = (if telegramConfigured env then [posted (telegramRequest env msg)] else [])
        ++ (if env.Getenv "SLACK_WEBHOOK_URL" ≠ "" then [posted (slackRequest env msg)] else [])
        ++ (if env.Getenv "DISCORD_WEBHOOK_URL" ≠ "" then [posted (discordRequest env msg)]
            else [])
        ++ (if (telegramConfigured env ∧ delivered env (telegramRequest env msg))
              ∨ (env.Getenv "SLACK_WEBHOOK_URL" ≠ "" ∧ delivered env (slackRequest env msg))
              ∨ (env.Getenv "DISCORD_WEBHOOK_URL" ≠ "" ∧ delivered env (discordRequest env msg))
            then []
            else [Event.println ("No notification channels configured. Message:\n" ++ msg)]) := by
  refine ⟨rfl, ?_⟩
  unfold SendNotifications recordSend sendTelegram sendSlack sendDiscord telegramConfigured
    delivered posted telegramRequest slackRequest discordRequest
  by_cases ht : env.Getenv "TELEGRAM_BOT_TOKEN" ≠ "" ∧ env.Getenv "TELEGRAM_CHAT_ID" ≠ ""
    <;> by_cases hs : env.Getenv "SLACK_WEBHOOK_URL" ≠ ""
    <;> by_cases hd : env.Getenv "DISCORD_WEBHOOK_URL" ≠ ""
    <;> by_cases pt : env.Post ("https://api.telegram.org/bot" ++ env.Getenv "TELEGRAM_BOT_TOKEN"
          ++ "/sendMessage") "application/json"
          [("chat_id", env.Getenv "TELEGRAM_CHAT_ID"), ("text", msg)] = none
    <;> by_cases ps : env.Post (env.Getenv "SLACK_WEBHOOK_URL") "application/json"
          [("text", msg)] = none
    <;> by_cases pd : env.Post (env.Getenv "DISCORD_WEBHOOK_URL") "application/json"
          [("content", msg)] = none
    <;> simp [ht, hs, hd, pt, ps, pd]
